import Mathlib

/-
Verification of the pagination/fan-out core of the tidal-mcp repository.

The embedded code is:
  * `bound_limit` and `fetch_all_items` from src/tidal_api/utils.py;
  * `get_user_tracks`, `get_single_track_recommendations` and
    `get_batch_track_recommendations` from src/tidal_api/routes/tracks.py.

Python integers are modelled as `Int`.  A page-fetch function
`fetch_func(limit, offset)` that may raise is modelled as
`Int → Int → Option (List α)` (`none` = the call raised).  The unbounded
`while True` loop of `fetch_all_items` is modelled with an explicit fuel
parameter bounding the number of iterations; theorems state the fuel they
need.  As ghost instrumentation the model also returns the log of
`(limit, offset)` argument pairs passed to the fetch function, so that
"how many fetches were issued, and with which limits" is observable.
-/

namespace TidalMcp

/-- Embedding of `bound_limit(limit, max_n=50)` from src/tidal_api/utils.py:
`if limit < 1: limit = 1 elif limit > max_n: limit = max_n`. -/
def bound_limit (limit : Int) (max_n : Int) : Int :=
  if limit < 1 then 1
  else if limit > max_n then max_n
  else limit

/-- The per-iteration batch-size computation of `fetch_all_items`
(src/tidal_api/utils.py): with a cap, `remaining = max_items - len(all_items)`;
`remaining <= 0` breaks the loop (modelled as `none`), otherwise the batch is
`min(page_size, remaining)`; without a cap the batch is `page_size`. -/
def batchSize (max_items : Option Int) (page_size : Int) (count : Nat) : Option Int :=
  match max_items with
  | some m =>
    let remaining : Int := m - (count : Int)
    if remaining ≤ 0 then none else some (min page_size remaining)
  | none => some page_size

/-- The `while True` loop of `fetch_all_items` (src/tidal_api/utils.py),
with fuel.  State: accumulated items `acc`, current `offset`, and the ghost
log of `(limit, offset)` pairs passed to `fetch`.  Each iteration: compute
the batch size (stop if the cap is reached); call `fetch`; on a raise
(`none`) stop and return what was accumulated; on an empty page stop;
otherwise append the items, and stop if the page was strictly shorter than
requested, else advance `offset` by the number of items received and loop. -/
def fetchAllGo {α : Type} (fetch : Int → Int → Option (List α))
    (max_items : Option Int) (page_size : Int) :
    Nat → List α → Int → List (Int × Int) → List α × List (Int × Int)
  | 0, acc, _, log => (acc, log)
  | fuel + 1, acc, offset, log =>
    match batchSize max_items page_size acc.length with
    | none => (acc, log)
    | some batch_size =>
      let log' := log ++ [(batch_size, offset)]
      match fetch batch_size offset with
      | none => (acc, log')
      | some items =>
        if items.isEmpty then (acc, log')
        else if (items.length : Int) < batch_size then (acc ++ items, log')
        else fetchAllGo fetch max_items page_size fuel (acc ++ items)
          (offset + (items.length : Int)) log'

/-- Embedding of `fetch_all_items(fetch_func, max_items, page_size)` from
src/tidal_api/utils.py, starting from an empty accumulator and offset 0.
Returns the accumulated items together with the ghost call log. -/
def fetch_all_items {α : Type} (fetch : Int → Int → Option (List α))
    (max_items : Option Int) (page_size : Int) (fuel : Nat) :
    List α × List (Int × Int) :=
  fetchAllGo fetch max_items page_size fuel [] 0 []

/-- A well-behaved paged source backed by a concrete list `L`: it returns the
slice of `L` of length at most `limit` starting at `offset`.  This models
"the underlying source has exactly the items of `L` available". -/
def listFetch {α : Type} (L : List α) (limit offset : Int) : Option (List α) :=
  some ((L.drop offset.toNat).take limit.toNat)

/-- Embedding of `get_user_tracks` (src/tidal_api/routes/tracks.py): the
favorite-tracks pagination.  The raw caller-supplied `limit` is passed as
`max_items` to the pagination helper with `page_size=100`; no clamping is
applied to it. -/
def get_user_tracks {α : Type} (favFetch : Int → Int → Option (List α))
    (limit : Int) (fuel : Nat) : List α × List (Int × Int) :=
  fetch_all_items favFetch (some limit) 100 fuel

/-- A track identifier.  Track ids are opaque; `Nat` stands in for them. -/
abbrev Seed := Nat

/-- A formatted track record as produced by `format_track_data`
(src/tidal_api/utils.py): only the `id` field and the optional
`source_track_id` field matter to the algorithms under study. -/
structure TrackData where
  id : Nat
  source_track_id : Option Seed
deriving DecidableEq

/-- Embedding of `get_single_track_recommendations`
(src/tidal_api/routes/tracks.py): the caller limit is clamped with
`bound_limit` and `track.get_track_radio(limit=...)` is issued with the
clamped value.  Returns the radio result together with the limit used. -/
def get_single_track_recommendations
    (radio : Int → Option (List TrackData)) (limit : Int) :
    Option (List TrackData) × Int :=
  let l := bound_limit limit 50
  (radio l, l)

/-- The inner task of `get_batch_track_recommendations`
(src/tidal_api/routes/tracks.py): fetch recommendations for one seed;
any exception is caught and converted to an empty result (`none → []`). -/
def get_track_recommendations (fetch : Seed → Option (List TrackData))
    (track_id : Seed) : List TrackData :=
  (fetch track_id).getD []

/-- One step of the merge loop of `get_batch_track_recommendations`:
state is `(all_recommendations, seen_track_ids)`; if `remove_duplicates` and
the id was already seen the item is skipped, otherwise it is appended and
its id recorded. -/
def mergeStep (remove_duplicates : Bool)
    (st : List TrackData × List Nat) (t : TrackData) :
    List TrackData × List Nat :=
  if remove_duplicates ∧ t.id ∈ st.2 then st
  else (st.1 ++ [t], st.2 ++ [t.id])

/-- The merge phase of `get_batch_track_recommendations`: the outer loop runs
over completed tasks' result lists, the inner loop over each list's items. -/
def mergeAll (remove_duplicates : Bool) (results : List (List TrackData))
    (st : List TrackData × List Nat) : List TrackData × List Nat :=
  results.foldl (fun st recs => recs.foldl (mergeStep remove_duplicates) st) st

/-- The merged output of the batch collector, starting from an empty output
list and an empty seen set. -/
def mergeResults (remove_duplicates : Bool)
    (results : List (List TrackData)) : List TrackData :=
  (mergeAll remove_duplicates results ([], [])).1

/-- The fan-out collection of `get_batch_track_recommendations`: tasks'
results are consumed in completion order, modelled by the explicit `order`
list of seeds (strict per-task isolation means each task's result depends
only on its own seed). -/
def collectBatch (remove_duplicates : Bool)
    (fetch : Seed → Option (List TrackData)) (order : List Seed) :
    List TrackData :=
  mergeResults remove_duplicates (order.map (get_track_recommendations fetch))

/-- Python-level shape of the `track_ids` argument: either not a list at all
(fails `isinstance(track_ids, list)`) or a list of seeds. -/
inductive BatchInput where
  | notAList : BatchInput
  | ofList : List Seed → BatchInput

/-- The body/error envelope returned by `get_batch_track_recommendations`. -/
inductive BatchResult where
  | ok : List TrackData → BatchResult
  | error : String → BatchResult
deriving DecidableEq

/-- Embedding of `get_batch_track_recommendations`
(src/tidal_api/routes/tracks.py).  In source order: the `isinstance` check
(→ 400), `bound_limit` on `limit_per_track`, then
`ThreadPoolExecutor(max_workers=len(track_ids))` — which for an empty list
raises `ValueError: max_workers must be greater than 0` (documented
`concurrent.futures` behaviour), caught by the outer `except` (→ 500) —
then the fan-out and merge (→ 200).  Returns `((body, status), call log)`
where the ghost log records the `(limit, seed)` of every issued
`get_track_radio` fetch. -/
def get_batch_track_recommendations (input : BatchInput)
    (limit_per_track : Int) (remove_duplicates : Bool)
    (fetch : Int → Seed → Option (List TrackData)) (order : List Seed) :
    (BatchResult × Nat) × List (Int × Seed) :=
  match input with
  | .notAList => ((.error "track_ids must be a list", 400), [])
  | .ofList track_ids =>
    let l := bound_limit limit_per_track 50
    if track_ids.isEmpty then
      ((.error "Error fetching batch recommendations: max_workers must be greater than 0", 500), [])
    else
      ((.ok (collectBatch remove_duplicates (fetch l) order), 200),
        order.map (fun s => (l, s)))

/-- `bound_limit` stays in `[1, max_n]` whenever `1 ≤ max_n`. -/
lemma bound_limit_mem (limit max_n : Int) (hm : 1 ≤ max_n) :
    1 ≤ bound_limit limit max_n ∧ bound_limit limit max_n ≤ max_n := by
  unfold bound_limit
  split
  · omega
  · split <;> omega

/-- C10: the bound helper clamps its input into `[1, max]`: any `limit < 1`
is raised to 1; otherwise any `limit > max` is lowered to `max`; otherwise
`limit` is returned unchanged.  In particular `bound(0, 50) = 1`,
`bound(1000, 50) = 50` and `bound(25, 50) = 25`. -/
theorem claim10_bound_limit_clamps (limit max_n : Int) :
    (limit < 1 → bound_limit limit max_n = 1) ∧
    (1 ≤ limit → max_n < limit → bound_limit limit max_n = max_n) ∧
    (1 ≤ limit → limit ≤ max_n → bound_limit limit max_n = limit) ∧
    bound_limit 0 50 = 1 ∧ bound_limit 1000 50 = 50 ∧
    bound_limit 25 50 = 25 := by
  unfold bound_limit
  refine ⟨fun h => ?_, fun h1 h2 => ?_, fun h1 h2 => ?_, by decide, by decide,
    by decide⟩
  · simp [h]
  · rw [if_neg (by omega), if_pos (by omega)]
  · rw [if_neg (by omega), if_neg (by omega)]

/-- Witness for C10: each clamping branch evaluated at a concrete input. -/
theorem claim10_bound_limit_clamps_witness :
    bound_limit (-3) 50 = 1 ∧ bound_limit 1000 50 = 50 ∧
    bound_limit 25 50 = 25 :=
  ⟨(claim10_bound_limit_clamps (-3) 50).1 (by decide),
   (claim10_bound_limit_clamps 1000 50).2.1 (by decide) (by decide),
   (claim10_bound_limit_clamps 25 50).2.2.1 (by decide) (by decide)⟩

/-- C9: with `max_items = 0` the aggregator returns an empty sequence and
issues zero fetch calls (the ghost log of issued calls is empty), for every
fetch function, page size and fuel. -/
theorem claim9_zero_cap {α : Type} (fetch : Int → Int → Option (List α))
    (page_size : Int) (fuel : Nat) :
    fetch_all_items fetch (some 0) page_size fuel = ([], []) := by
  cases fuel <;> simp [fetch_all_items, fetchAllGo, batchSize]

/-- Counterexample to C1 as stated: a page-fetch function returning five
items although asked for at most one (`fetch_all_items` never truncates an
over-long page) makes the aggregate exceed the cap `maxItems = 1`. -/
theorem claim1_counterexample :
    (fetch_all_items (fun _ _ => some [0, 1, 2, 3, 4]) (some 1) 100 2).1 =
      [0, 1, 2, 3, 4] ∧
    ¬ (((fetch_all_items (fun _ _ => some [0, 1, 2, 3, 4]) (some 1) 100
      2).1.length : Int) ≤ 1) := by
  decide

/-- Counterexample to C4 as stated: an empty seed list does make the batch
collector fail, but through the worker-pool constructor caught by the outer
handler (status 500), not through the caller-input validation path (which
reports 400, as the non-list case shows). -/
theorem claim4_counterexample :
    (get_batch_track_recommendations (.ofList []) 20 true
        (fun _ _ => some []) []).1 =
      (.error
        "Error fetching batch recommendations: max_workers must be greater than 0",
        500) ∧
    (get_batch_track_recommendations .notAList 20 true
        (fun _ _ => some []) []).1.2 = 400 ∧
    (500 : Nat) ≠ 400 := by
  refine ⟨rfl, rfl, by decide⟩

/-- Counterexample to C5 as stated: the favorite-tracks pagination
(`get_user_tracks`) passes the raw caller limit 51 straight through; the
single fetch it issues carries limit 51, outside `[1, 50]`, and 51 is not
what `bound_limit` would have produced. -/
theorem claim5_counterexample :
    (get_user_tracks (listFetch (List.range 51)) 51 3).2 = [(51, 0)] ∧
    ¬ ((51 : Int) ≤ 50) ∧ bound_limit 51 50 ≠ 51 := by
  refine ⟨by decide, by decide, by decide⟩

/-- C4 (amended): a non-list seed argument is rejected as a caller-input
error (400) with no fetch task launched; an empty seed list also fails with
no fetch task launched, but is reported as a generic server error (500) via
the worker-pool constructor; every non-empty well-formed seed list succeeds
(status 200). -/
theorem claim4_amended_failure_modes :
    (∀ (l : Int) (d : Bool) (fetch : Int → Seed → Option (List TrackData))
        (order : List Seed),
      get_batch_track_recommendations .notAList l d fetch order =
        ((.error "track_ids must be a list", 400), [])) ∧
    (∀ (l : Int) (d : Bool) (fetch : Int → Seed → Option (List TrackData))
        (order : List Seed),
      (get_batch_track_recommendations (.ofList []) l d fetch order).1.2 =
        500 ∧
      (get_batch_track_recommendations (.ofList []) l d fetch order).2 =
        []) ∧
    (∀ (ids : List Seed) (l : Int) (d : Bool)
        (fetch : Int → Seed → Option (List TrackData)) (order : List Seed),
      ids ≠ [] →
      (get_batch_track_recommendations (.ofList ids) l d fetch order).1.2 =
        200) := by
  refine ⟨fun l d fetch order => rfl, fun l d fetch order => ⟨rfl, rfl⟩,
    fun ids l d fetch order h => ?_⟩
  simp [get_batch_track_recommendations, List.isEmpty_iff, h]

/-- Witness for C4 (amended): a singleton seed list succeeds with 200. -/
theorem claim4_amended_failure_modes_witness :
    (get_batch_track_recommendations (.ofList [5]) 20 true
      (fun _ _ => some []) [5]).1.2 = 200 :=
  claim4_amended_failure_modes.2.2 [5] 20 true (fun _ _ => some []) [5]
    (by decide)

/-- C5 (amended): the single-track and batch recommendation operations pass
the caller limit through `bound_limit(·, 50)`, so every fetch they issue
carries a limit in `[1, 50]`; the favorite-tracks pagination applies no
bound and can issue a fetch with a limit outside `[1, 50]`. -/
theorem claim5_amended_bounding :
    (∀ (radio : Int → Option (List TrackData)) (limit : Int),
      1 ≤ (get_single_track_recommendations radio limit).2 ∧
      (get_single_track_recommendations radio limit).2 ≤ 50) ∧
    (∀ (input : BatchInput) (l : Int) (d : Bool)
        (fetch : Int → Seed → Option (List TrackData)) (order : List Seed)
        (c : Int × Seed),
      c ∈ (get_batch_track_recommendations input l d fetch order).2 →
      1 ≤ c.1 ∧ c.1 ≤ 50) ∧
    (get_user_tracks (listFetch (List.range 51)) 51 3).2.any
      (fun c => decide (50 < c.1)) = true := by
  refine ⟨fun radio limit => bound_limit_mem limit 50 (by decide),
    fun input l d fetch order c hc => ?_, by decide⟩
  cases input with
  | notAList => simp [get_batch_track_recommendations] at hc
  | ofList ids =>
    simp only [get_batch_track_recommendations] at hc
    split at hc
    · simp at hc
    · simp only [List.mem_map] at hc
      obtain ⟨s, _, rfl⟩ := hc
      exact bound_limit_mem l 50 (by decide)

/-- Witness for C5 (amended): a batch call issued with raw limit 1000
reaches the fetch with the clamped limit 50 ∈ [1, 50]. -/
theorem claim5_amended_bounding_witness :
    1 ≤ ((50 : Int), (3 : Seed)).1 ∧ ((50 : Int), (3 : Seed)).1 ≤ 50 :=
  claim5_amended_bounding.2.1 (.ofList [3]) 1000 true (fun _ _ => some [])
    [3] (50, 3) (by decide)

/-- With a cap `N`, a positive page size and a fetch that never returns more
items than the (positive) requested limit, the loop keeps the accumulator at
or below `N`. -/
lemma fetchAllGo_length_le {α : Type} (fetch : Int → Int → Option (List α))
    (N page_size : Int) (hps : 1 ≤ page_size)
    (hfetch : ∀ l o items, 1 ≤ l → fetch l o = some items →
      (items.length : Int) ≤ l) :
    ∀ (fuel : Nat) (acc : List α) (offset : Int) (log : List (Int × Int)),
      (acc.length : Int) ≤ N →
      (((fetchAllGo fetch (some N) page_size fuel acc offset
        log).1.length : Int)) ≤ N := by
  intro fuel
  induction fuel with
  | zero => intro acc offset log hacc; simpa [fetchAllGo] using hacc
  | succ n ih =>
    intro acc offset log hacc
    by_cases hrem : N - (acc.length : Int) ≤ 0
    · simpa [fetchAllGo, batchSize, hrem] using hacc
    · have hb : batchSize (some N) page_size acc.length =
          some (min page_size (N - (acc.length : Int))) := by
        simp [batchSize, hrem]
      cases hf : fetch (min page_size (N - (acc.length : Int))) offset with
      | none =>
        simp only [fetchAllGo, hb, hf]
        exact hacc
      | some items =>
        have hlen : (items.length : Int) ≤
            min page_size (N - (acc.length : Int)) :=
          hfetch _ _ _ (by omega) hf
        have happ : ((acc ++ items).length : Int) ≤ N := by
          rw [List.length_append]
          push_cast
          omega
        simp only [fetchAllGo, hb, hf]
        by_cases hemp : items.isEmpty = true
        · rw [if_pos hemp]
          exact hacc
        · rw [if_neg hemp]
          by_cases hshort :
              (items.length : Int) < min page_size (N - (acc.length : Int))
          · rw [if_pos hshort]
            exact happ
          · rw [if_neg hshort]
            exact ih _ _ _ happ

/-- Running the loop against the list-backed source with a cap `N` that the
source can satisfy consumes exactly the next `N - |acc|` items, provided at
least `N - |acc| + 1` iterations of fuel remain. -/
lemma fetchAllGo_listFetch_some {α : Type} (L : List α) (N page_size : Int)
    (hN : 0 ≤ N) (hps : 1 ≤ page_size) (hNL : N.toNat ≤ L.length) :
    ∀ (fuel : Nat) (acc : List α) (offset : Int) (log : List (Int × Int)),
      offset = (acc.length : Int) →
      N.toNat + 1 ≤ fuel + acc.length →
      (fetchAllGo (listFetch L) (some N) page_size fuel acc offset log).1 =
        acc ++ (L.drop acc.length).take (N.toNat - acc.length) := by
  intro fuel
  induction fuel with
  | zero =>
    intro acc offset log hoff hfuel
    have : N.toNat - acc.length = 0 := by omega
    simp [fetchAllGo, this]
  | succ n ih =>
    intro acc offset log hoff hfuel
    by_cases hrem : N - (acc.length : Int) ≤ 0
    · have h0 : N.toNat - acc.length = 0 := by omega
      simp [fetchAllGo, batchSize, hrem, h0]
    · have hb : batchSize (some N) page_size acc.length =
          some (min page_size (N - (acc.length : Int))) := by
        simp [batchSize, hrem]
      set b := min page_size (N - (acc.length : Int)) with hbdef
      have hb1 : 1 ≤ b := by
        rw [hbdef]
        omega
      have hbrem : b ≤ N - (acc.length : Int) := by
        rw [hbdef]
        omega
      have hitems : listFetch L b offset =
          some ((L.drop acc.length).take b.toNat) := by
        rw [listFetch, hoff]
        simp
      have hdroplen : (L.drop acc.length).length = L.length - acc.length :=
        List.length_drop _ _
      have haccN : acc.length < N.toNat := by omega
      have htakelen : ((L.drop acc.length).take b.toNat).length = b.toNat := by
        rw [List.length_take]
        omega
      have hne : ¬ (((L.drop acc.length).take b.toNat).isEmpty = true) := by
        rw [List.isEmpty_iff, ← List.length_eq_zero, htakelen]
        omega
      have hnshort :
          ¬ ((((L.drop acc.length).take b.toNat).length : Int) < b) := by
        rw [htakelen]
        omega
      simp only [fetchAllGo, hb, hitems]
      rw [if_neg hne, if_neg hnshort]
      rw [ih (acc ++ (L.drop acc.length).take b.toNat)
        (offset + (((L.drop acc.length).take b.toNat).length : Int)) _
        (by rw [List.length_append, htakelen, hoff]; push_cast; omega)
        (by rw [List.length_append, htakelen]; omega)]
      rw [List.append_assoc]
      congr 1
      rw [List.length_append, htakelen]
      have hsplit : N.toNat - acc.length =
          b.toNat + (N.toNat - (acc.length + b.toNat)) := by omega
      rw [hsplit, List.take_add]
      congr 1
      rw [List.drop_drop]

/-- Running the loop against the list-backed source with no cap consumes
the whole remainder of the list, provided enough fuel remains. -/
lemma fetchAllGo_listFetch_none {α : Type} (L : List α) (page_size : Int)
    (hps : 1 ≤ page_size) :
    ∀ (fuel : Nat) (acc : List α) (offset : Int) (log : List (Int × Int)),
      offset = (acc.length : Int) →
      L.length + 1 ≤ fuel + acc.length →
      (fetchAllGo (listFetch L) none page_size fuel acc offset log).1 =
        acc ++ L.drop acc.length := by
  intro fuel
  induction fuel with
  | zero =>
    intro acc offset log hoff hfuel
    have : L.drop acc.length = [] := by
      rw [List.drop_eq_nil_iff]
      omega
    simp [fetchAllGo, this]
  | succ n ih =>
    intro acc offset log hoff hfuel
    have hb : batchSize none page_size acc.length = some page_size := rfl
    have hitems : listFetch L page_size offset =
        some ((L.drop acc.length).take page_size.toNat) := by
      rw [listFetch, hoff]
      simp
    have hdroplen : (L.drop acc.length).length = L.length - acc.length :=
      List.length_drop _ _
    simp only [fetchAllGo, hb, hitems]
    by_cases hemp : (((L.drop acc.length).take page_size.toNat).isEmpty = true)
    · have hnil : L.drop acc.length = [] := by
        rw [List.isEmpty_iff, List.take_eq_nil_iff] at hemp
        rcases hemp with h | h
        · omega
        · exact h
      rw [if_pos hemp, hnil]
      simp
    · rw [if_neg hemp]
      by_cases hshort :
          ((((L.drop acc.length).take page_size.toNat).length : Int) <
            page_size)
      · have hlt : (L.drop acc.length).length < page_size.toNat := by
          rw [List.length_take] at hshort
          omega
        have htake : (L.drop acc.length).take page_size.toNat =
            L.drop acc.length := List.take_of_length_le (by omega)
        rw [if_pos hshort, htake]
      · have hfull : ((L.drop acc.length).take page_size.toNat).length =
            page_size.toNat := by
          rw [List.length_take]
          rw [List.length_take] at hshort
          omega
        rw [if_neg hshort]
        rw [ih (acc ++ (L.drop acc.length).take page_size.toNat)
          (offset + ((((L.drop acc.length).take page_size.toNat)).length : Int))
          _
          (by rw [List.length_append, hfull, hoff]; push_cast; omega)
          (by rw [List.length_append, hfull]; omega)]
        rw [List.append_assoc]
        congr 1
        rw [List.length_append, hfull]
        calc (L.drop acc.length).take page_size.toNat ++
            L.drop (acc.length + page_size.toNat)
            = (L.drop acc.length).take page_size.toNat ++
              (L.drop acc.length).drop page_size.toNat := by
              rw [List.drop_drop]
          _ = L.drop acc.length := List.take_append_drop _ _

/-- C1 (amended): with a positive page size and a page-fetch function that
never returns more items than the (positive) limit it was asked for, the
aggregate under cap `maxItems = N ≥ 0` has length at most `N`; and against a
list-backed source holding at least `N` items it is exactly the first `N`
items (so has length exactly `N`), given at least `N + 1` loop iterations. -/
theorem claim1_cap_property {α : Type} :
    (∀ (fetch : Int → Int → Option (List α)) (N page_size : Int)
        (fuel : Nat),
      0 ≤ N → 1 ≤ page_size →
      (∀ l o items, 1 ≤ l → fetch l o = some items →
        (items.length : Int) ≤ l) →
      ((fetch_all_items fetch (some N) page_size fuel).1.length : Int) ≤
        N) ∧
    (∀ (L : List α) (N page_size : Int) (fuel : Nat),
      0 ≤ N → 1 ≤ page_size → N.toNat ≤ L.length → N.toNat + 1 ≤ fuel →
      (fetch_all_items (listFetch L) (some N) page_size fuel).1 =
        L.take N.toNat ∧
      (fetch_all_items (listFetch L) (some N) page_size fuel).1.length =
        N.toNat) := by
  constructor
  · intro fetch N page_size fuel hN hps hfetch
    exact fetchAllGo_length_le fetch N page_size hps hfetch fuel [] 0 []
      (by simpa using hN)
  · intro L N page_size fuel hN hps hNL hfuel
    have h := fetchAllGo_listFetch_some L N page_size hN hps hNL fuel [] 0 []
      (by simp) (by simpa using hfuel)
    rw [fetch_all_items, h]
    simp only [List.length_nil, List.drop_zero, List.nil_append,
      Nat.sub_zero]
    exact ⟨trivial, by rw [List.length_take]; omega⟩

/-- Witness for C1 (amended): a 7-item source, cap 5, page size 2: the
aggregate is the first 5 items, and its length is at most 5. -/
theorem claim1_cap_property_witness :
    (((fetch_all_items (listFetch (List.range 7)) (some 5) 2
      6).1.length : Int) ≤ 5) ∧
    ((fetch_all_items (listFetch (List.range 7)) (some 5) 2 6).1 =
      (List.range 7).take 5) :=
  ⟨claim1_cap_property.1 (listFetch (List.range 7)) 5 2 6 (by decide)
      (by decide)
      (fun l o items hl h => by
        simp only [listFetch, Option.some.injEq] at h
        subst h
        rw [List.length_take]
        omega),
    ((claim1_cap_property.2 (List.range 7) 5 2 6 (by decide) (by decide)
      (by decide) (by decide)).1).trans (by decide)⟩

/-- C7: with no cap, a positive page size and a list-backed source, the
aggregator collects exactly the whole source — in particular it stops once
the source returns a page shorter than the requested batch — given fuel at
least `|L| + 1`. -/
theorem claim7_termination {α : Type} (L : List α) (page_size : Int)
    (fuel : Nat) (hps : 1 ≤ page_size) (hfuel : L.length + 1 ≤ fuel) :
    (fetch_all_items (listFetch L) none page_size fuel).1 = L := by
  have h := fetchAllGo_listFetch_none L page_size hps fuel [] 0 []
    (by simp) (by simpa using hfuel)
  rw [fetch_all_items, h]
  simp

/-- Witness for C7: a 340-item source with pages of 100 (3 full pages, then
a short page of 40) yields exactly the 340 items. -/
theorem claim7_termination_witness :
    (fetch_all_items (listFetch (List.range 340)) none 100 341).1 =
      List.range 340 :=
  claim7_termination (List.range 340) 100 341 (by decide)
    (by rw [List.length_range])

/-- C6: if the computed batch is issued and the fetch raises (`none`), the
loop stops immediately and returns exactly the accumulated items, logging
the failed call; concretely, a source that serves pages of 10 from a 50-item
list but raises from offset 30 on yields exactly the 30 items accumulated by
the three successful fetches. -/
theorem claim6_failure_absorbed {α : Type} :
    (∀ (fetch : Int → Int → Option (List α)) (max_items : Option Int)
        (page_size : Int) (fuel : Nat) (acc : List α) (offset : Int)
        (log : List (Int × Int)) (b : Int),
      batchSize max_items page_size acc.length = some b →
      fetch b offset = none →
      fetchAllGo fetch max_items page_size (fuel + 1) acc offset log =
        (acc, log ++ [(b, offset)])) ∧
    (fetch_all_items
        (fun l o =>
          if o < 30 then listFetch (List.range 50) l o else none)
        none 10 9 =
      (List.range 30, [(10, 0), (10, 10), (10, 20), (10, 30)])) := by
  constructor
  · intro fetch max_items page_size fuel acc offset log b hb hf
    simp only [fetchAllGo, hb, hf]
  · decide

/-- Witness for C6: a fetch that always raises makes the loop return the
accumulator unchanged, with the single failed call logged. -/
theorem claim6_failure_absorbed_witness :
    fetchAllGo (fun _ _ => (none : Option (List Nat))) none 7 1 [1, 2] 5
      [] = ([1, 2], [(7, 5)]) :=
  claim6_failure_absorbed.1 (fun _ _ => none) none 7 0 [1, 2] 5 [] 7 rfl
    rfl

/-- C8: for a page-fetch function that raises whenever its offset is
nonzero, if the first fetch (batch `b` at offset 0) succeeds with `page`,
the aggregator returns exactly that first page, whatever happens next. -/
theorem claim8_no_offset_source {α : Type}
    (fetch : Int → Int → Option (List α)) (max_items : Option Int)
    (page_size : Int) (fuel : Nat) (b : Int) (page : List α)
    (hno : ∀ l o, o ≠ 0 → fetch l o = none)
    (hb : batchSize max_items page_size 0 = some b)
    (hfirst : fetch b 0 = some page)
    (hfuel : 2 ≤ fuel) :
    (fetch_all_items fetch max_items page_size fuel).1 = page := by
  obtain ⟨m, rfl⟩ : ∃ m, fuel = m + 2 := ⟨fuel - 2, by omega⟩
  rw [fetch_all_items]
  simp only [fetchAllGo, List.length_nil, hb, hfirst, List.nil_append]
  by_cases hemp : page.isEmpty = true
  · rw [if_pos hemp]
    rw [List.isEmpty_iff] at hemp
    simp [hemp]
  · rw [if_neg hemp]
    by_cases hshort : (page.length : Int) < b
    · rw [if_pos hshort]
    · rw [if_neg hshort]
      have hplen : page ≠ [] := by
        simpa [List.isEmpty_iff] using hemp
      have hoff : (0 : Int) + (page.length : Int) ≠ 0 := by
        have : 0 < page.length := List.length_pos.mpr hplen
        omega
      cases hb2 : batchSize max_items page_size page.length with
      | none => simp only [fetchAllGo, hb2]
      | some b2 =>
        have hf2 : fetch b2 (0 + (page.length : Int)) = none :=
          hno _ _ hoff
        simp only [fetchAllGo, hb2, hf2]

/-- Witness for C8: a source that only answers at offset 0 with `[1, 2, 3]`
yields exactly that first page. -/
theorem claim8_no_offset_source_witness :
    (fetch_all_items
      (fun _ o => if o = 0 then some [1, 2, 3] else none) none 100
      2).1 = [1, 2, 3] :=
  claim8_no_offset_source
    (fun _ o => if o = 0 then some [1, 2, 3] else none) none 100 2 100
    [1, 2, 3]
    (fun _ o h => by simp [h]) rfl (by simp) (by decide)

/-- One merge step with de-duplication on preserves the invariant that the
seen set is exactly the ids of the output, with no duplicates. -/
lemma mergeStep_invariant (t : TrackData) (st : List TrackData × List Nat)
    (h1 : st.2 = st.1.map TrackData.id)
    (h2 : (st.1.map TrackData.id).Nodup) :
    (mergeStep true st t).2 = (mergeStep true st t).1.map TrackData.id ∧
    ((mergeStep true st t).1.map TrackData.id).Nodup := by
  rw [mergeStep]
  split
  · exact ⟨h1, h2⟩
  next h =>
    have hid : t.id ∉ st.1.map TrackData.id := by
      rw [← h1]
      intro hmem
      exact h ⟨rfl, hmem⟩
    refine ⟨by simp [h1], ?_⟩
    simp only [List.map_append, List.map_cons, List.map_nil]
    simp [List.nodup_append, h2, hid]

/-- Folding one task's item list preserves the merge invariant. -/
lemma mergeItems_invariant (ts : List TrackData) :
    ∀ st : List TrackData × List Nat,
      st.2 = st.1.map TrackData.id → (st.1.map TrackData.id).Nodup →
      (ts.foldl (mergeStep true) st).2 =
        (ts.foldl (mergeStep true) st).1.map TrackData.id ∧
      ((ts.foldl (mergeStep true) st).1.map TrackData.id).Nodup := by
  induction ts with
  | nil => intro st h1 h2; exact ⟨h1, h2⟩
  | cons t rest ih =>
    intro st h1 h2
    have h := mergeStep_invariant t st h1 h2
    exact ih _ h.1 h.2

/-- Stepping the outer merge loop over one result list. -/
lemma mergeAll_cons (d : Bool) (r : List TrackData)
    (rs : List (List TrackData)) (st : List TrackData × List Nat) :
    mergeAll d (r :: rs) st = mergeAll d rs (r.foldl (mergeStep d) st) :=
  rfl

/-- The whole merge with de-duplication on preserves the invariant. -/
lemma mergeAll_invariant (results : List (List TrackData)) :
    ∀ st : List TrackData × List Nat,
      st.2 = st.1.map TrackData.id → (st.1.map TrackData.id).Nodup →
      (mergeAll true results st).2 =
        (mergeAll true results st).1.map TrackData.id ∧
      ((mergeAll true results st).1.map TrackData.id).Nodup := by
  induction results with
  | nil => intro st h1 h2; exact ⟨h1, h2⟩
  | cons r rs ih =>
    intro st h1 h2
    rw [mergeAll_cons]
    have h := mergeItems_invariant r st h1 h2
    exact ih _ h.1 h.2

/-- With de-duplication on, the merged output has pairwise-distinct ids. -/
lemma mergeResults_nodup (results : List (List TrackData)) :
    ((mergeResults true results).map TrackData.id).Nodup :=
  (mergeAll_invariant results ([], []) rfl (by simp)).2

/-- A task whose fetch raised contributes nothing: merging the per-seed
results equals merging only the results of the seeds whose fetch
succeeded. -/
lemma mergeAll_skip_failed (d : Bool)
    (fetch : Seed → Option (List TrackData)) :
    ∀ (order : List Seed) (st : List TrackData × List Nat),
      mergeAll d (order.map (get_track_recommendations fetch)) st =
        mergeAll d ((order.filter (fun s => (fetch s).isSome)).map
          (fun s => (fetch s).getD [])) st := by
  intro order
  induction order with
  | nil => intro st; rfl
  | cons s rest ih =>
    intro st
    rw [List.map_cons, mergeAll_cons, List.filter_cons]
    cases hf : fetch s with
    | none =>
      have h1 : get_track_recommendations fetch s = [] := by
        rw [get_track_recommendations, hf]
        rfl
      rw [h1]
      simp only [hf, Option.isSome_none, if_false, Bool.false_eq_true]
      exact ih st
    | some items =>
      have h1 : get_track_recommendations fetch s = items := by
        rw [get_track_recommendations, hf]
        rfl
      simp only [hf, Option.isSome_some, if_true, List.map_cons,
        mergeAll_cons, Option.getD_some, h1]
      exact ih _

/-- C2: with de-duplication on, the merged fan-out output contains each item
identifier at most once, for every per-seed fetch function and every
completion order; in particular, for two seeds whose recommendations carry
the overlapping id sets {1,2,3} and {2,3,4}, the merged output contains each
of 1,2,3,4 exactly once, in either completion order. -/
theorem claim2_dedup :
    (∀ (fetch : Seed → Option (List TrackData)) (order : List Seed)
        (i : Nat),
      ((collectBatch true fetch order).map TrackData.id).count i ≤ 1) ∧
    (∀ order ∈ [[10, 20], [20, 10]], ∀ i ∈ [1, 2, 3, 4],
      ((collectBatch true
          (fun s =>
            if s = 10 then
              some ([1, 2, 3].map (fun k => TrackData.mk k (some 10)))
            else if s = 20 then
              some ([2, 3, 4].map (fun k => TrackData.mk k (some 20)))
            else none)
          order).map TrackData.id).count i = 1) := by
  constructor
  · intro fetch order i
    exact List.nodup_iff_count_le_one.mp (mergeResults_nodup _) i
  · decide

/-- Witness for C2: in completion order [10, 20], identifier 2 (present in
both seeds' results) appears exactly once in the merged output. -/
theorem claim2_dedup_witness :
    ((collectBatch true
        (fun s =>
          if s = 10 then
            some ([1, 2, 3].map (fun k => TrackData.mk k (some 10)))
          else if s = 20 then
            some ([2, 3, 4].map (fun k => TrackData.mk k (some 20)))
          else none)
        [10, 20]).map TrackData.id).count 2 = 1 :=
  claim2_dedup.2 [10, 20] (by decide) 2 (by decide)

/-- C3: a seed whose fetch raises contributes an empty result, so the merged
output equals exactly the (de-duplicated) merge of the results of the seeds
whose fetches succeeded; concretely, with seed 20 raising, the batch yields
exactly seed 10's items, in either completion order. -/
theorem claim3_fault_tolerance :
    (∀ (d : Bool) (fetch : Seed → Option (List TrackData))
        (order : List Seed),
      collectBatch d fetch order =
        mergeResults d ((order.filter (fun s => (fetch s).isSome)).map
          (fun s => (fetch s).getD []))) ∧
    (∀ order ∈ [[10, 20], [20, 10]],
      collectBatch true
        (fun s =>
          if s = 10 then
            some ([1, 2, 3].map (fun k => TrackData.mk k (some 10)))
          else none)
        order =
        [⟨1, some 10⟩, ⟨2, some 10⟩, ⟨3, some 10⟩]) := by
  constructor
  · intro d fetch order
    rw [collectBatch, mergeResults, mergeResults, mergeAll_skip_failed]
  · decide

/-- Witness for C3: with seed 20 raising and completion order [20, 10], the
batch returns exactly seed 10's three items. -/
theorem claim3_fault_tolerance_witness :
    collectBatch true
      (fun s =>
        if s = 10 then
          some ([1, 2, 3].map (fun k => TrackData.mk k (some 10)))
        else none)
      [20, 10] =
      [⟨1, some 10⟩, ⟨2, some 10⟩, ⟨3, some 10⟩] :=
  claim3_fault_tolerance.2 [20, 10] (by decide)

end TidalMcp
